import Mathlib

/-!
Verification of the margin-calculation / cumulative-rollup core of the
sales-analysis application (`main.py`).

The development shallowly embeds the relevant parts of the source:

* cell-level Python/pandas arithmetic on possibly non-numeric spreadsheet
  values (`pyMul`, `pySub`, ...), as applied elementwise by the vectorised
  column operations in `calculate_margin`;
* the purchase-history store and its two merge operations
  (`calculate_margin` lines 1660-1668 deduplicating on `商品编码`, and
  `merge_and_update_data` lines 1397-1399 deduplicating on
  `['商品编码', '建单时间']`);
* the per-row margin derivation of `calculate_margin` lines 1691-1706;
* the monthly / yearly rollup update `update_cumulative_data`
  (lines 1750-1814), including its date parsing and its outer
  catch-everything handler;
* the column normalizer `auto_rename_columns` and the manual history load
  `load_history_data` (lines 898-912);
* the configuration and its best-effort persist `save_config`
  (lines 164-170) with its two calling operations `change_export_path`
  (lines 995-1002) and `save_settings` (lines 1080-1098);
* a run-level composition `calculateMargin` reflecting the control flow of
  `calculate_margin`: merge, best-effort history persist, per-row
  computation (any failure aborts the run before any report exists),
  rollup update (never propagates), report production.

Monetary values are embedded as rationals; timestamps as naturals
(`datetime.now()` readings are strictly increasing across calls); disk
outcomes of the best-effort persists are explicit boolean parameters that
may only influence the produced log, never the computation, mirroring the
`try/except ... logger.error` wrappers in the source.
-/

namespace MarginApp

attribute [local semireducible] Rat.add Rat.mul Rat.sub Rat.inv

deriving instance DecidableEq for Except

/-- Rounding of `q` to the nearest integer, ties to even — the rounding used
by numpy/pandas `round`, which `calculate_margin` applies to every derived
monetary column and to the margin rate. -/
def roundHalfEven (q : ℚ) : ℤ :=
  let f : ℤ := ⌊q⌋
  let r : ℚ := q - f
  if r < 1/2 then f
  else if 1/2 < r then f + 1
  else if f % 2 = 0 then f else f + 1

/-- Rounding of a rational to 2 decimal places (`Series.round(2)`). -/
def round2 (q : ℚ) : ℚ := (roundHalfEven (q * 100) : ℚ) / 100

/-- Truncation toward zero, the effect of `astype(int)` on the quantity
column at line 1706. -/
def truncInt (q : ℚ) : ℤ := if 0 ≤ q then ⌊q⌋ else -⌊-q⌋

/-- Value of a spreadsheet cell as the object columns of the merged pandas
frame hold it: a number or a non-numeric string. Integer-valued numbers
stand for Python `int` cells (read_excel yields `int` for integral cells of
an object column), which matters only for Python's sequence-repetition
quirk in `pyMul`. -/
inductive CellVal where
  | num (q : ℚ)
  | str (s : String)
deriving DecidableEq

/-- Whether the cell holds a number. -/
def CellVal.isNum : CellVal → Bool
  | .num _ => true
  | .str _ => false

/-- Python string repetition `s * n` (empty for non-positive `n`). -/
def strRep (s : String) (n : ℚ) : String :=
  String.join (List.replicate n.floor.toNat s)

/-- Python `*` as pandas applies it elementwise on object columns:
number times number multiplies; a string times an `int` is sequence
repetition; every other combination raises `TypeError`. -/
def pyMul : CellVal → CellVal → Except String CellVal
  | .num a, .num b => .ok (.num (a * b))
  | .str s, .num b => if b.den = 1 then .ok (.str (strRep s b)) else .error "TypeError: mul"
  | .num a, .str s => if a.den = 1 then .ok (.str (strRep s a)) else .error "TypeError: mul"
  | .str _, .str _ => .error "TypeError: mul"

/-- Python `-` elementwise: defined on numbers only. -/
def pySub : CellVal → CellVal → Except String CellVal
  | .num a, .num b => .ok (.num (a - b))
  | _, _ => .error "TypeError: sub"

/-- Python `> 0` elementwise, as used by the `np.where` mask on the sale
amount column: defined on numbers only. -/
def pyGtZero : CellVal → Except String Bool
  | .num a => .ok (decide (0 < a))
  | .str _ => .error "TypeError: cmp"

/-- Python `/` elementwise on the already-numeric margin and sale columns
(numpy float division never raises; division by zero yields a value the
`np.where` mask discards, which the Lean convention `q / 0 = 0` models
equally well). -/
def pyDiv : CellVal → CellVal → Except String CellVal
  | .num a, .num b => .ok (.num (a / b))
  | _, _ => .error "TypeError: div"

/-- `Series.round(2)` elementwise: defined on numbers only. -/
def pyRound2 : CellVal → Except String CellVal
  | .num a => .ok (.num (round2 a))
  | .str _ => .error "TypeError: round"

/-- `astype(int)` elementwise on the quantity column.  In every run this is
reached only after the arithmetic columns succeeded, hence only on numeric
cells; a non-numeric cell is modelled as the failure the surrounding
vectorised pipeline produces anyway. -/
def pyToInt : CellVal → Except String ℤ
  | .num a => .ok (truncInt a)
  | .str _ => .error "TypeError: int"

/-- A sales row after column normalization: product code plus the raw
quantity and unit-price cells (further columns of the sales table are
carried through the computation untouched and are not modelled). -/
structure RawSalesRow where
  code : String
  qty : CellVal
  price : CellVal
deriving DecidableEq

/-- One row of the calculated output frame: the derived columns appended by
`calculate_margin` lines 1691-1706, after rounding. -/
structure CalcLine where
  code : String
  qty : ℤ
  unitPrice : ℚ
  purchasePrice : ℚ
  saleAmount : ℚ
  purchaseCost : ℚ
  margin : ℚ
  marginRate : ℚ
deriving DecidableEq

/-- A record of the purchase-history store: product code, purchase unit
price, record timestamp (`建单时间`). -/
structure Rec where
  code : String
  price : ℚ
  time : ℕ
deriving DecidableEq

/-- A row of a latest-purchase input table before it is stamped with the
merge time. -/
structure NewRec where
  code : String
  price : ℚ
deriving DecidableEq

/-- Stamping of new purchase rows with the merge time
(`latest_data['建单时间'] = datetime.now()`). -/
def stampAll (now : ℕ) (l : List NewRec) : List Rec :=
  l.map fun r => ⟨r.code, r.price, now⟩

/-- Comparison used by `sort_values('建单时间', ascending=False)`: `a`
may precede `b` when `a` is at least as recent. -/
def timeGE (a b : Rec) : Prop := b.time ≤ a.time

instance : DecidableRel timeGE := fun a b => inferInstanceAs (Decidable (b.time ≤ a.time))

instance : IsTotal Rec timeGE := ⟨fun a b => le_total b.time a.time⟩

instance : IsTrans Rec timeGE := ⟨fun _ _ _ hab hbc => le_trans hbc hab⟩

/-- Sorting of the concatenated store by timestamp, most recent first. -/
def sortDescTime (l : List Rec) : List Rec := l.insertionSort timeGE

/-- Helper for `drop_duplicates('商品编码', keep='first')`: keeps the first
row of each product code not seen yet. -/
def dedupByCodeAux (seen : List String) : List Rec → List Rec
  | [] => []
  | x :: xs =>
      if x.code ∈ seen then dedupByCodeAux seen xs
      else x :: dedupByCodeAux (x.code :: seen) xs

/-- `drop_duplicates('商品编码', keep='first')`. -/
def dedupByCode (l : List Rec) : List Rec := dedupByCodeAux [] l

/-- Helper for `drop_duplicates(['商品编码', '建单时间'], keep='first')`. -/
def dedupByCodeTimeAux (seen : List (String × ℕ)) : List Rec → List Rec
  | [] => []
  | x :: xs =>
      if (x.code, x.time) ∈ seen then dedupByCodeTimeAux seen xs
      else x :: dedupByCodeTimeAux ((x.code, x.time) :: seen) xs

/-- `drop_duplicates(['商品编码', '建单时间'], keep='first')`. -/
def dedupByCodeTime (l : List Rec) : List Rec := dedupByCodeTimeAux [] l

/-- History merge performed inside every calculation run
(`calculate_margin` lines 1660-1668): stamp the new rows, concatenate onto
the existing store, sort by timestamp descending, keep the first row per
product code. -/
def mergeCalc (hist : List Rec) (new : List NewRec) (now : ℕ) : List Rec :=
  dedupByCode (sortDescTime (hist ++ stampAll now new))

/-- History merge performed by the manual "merge latest purchase data"
action (`merge_and_update_data` lines 1390-1399): stamp, concatenate, sort
descending, keep the first row per (product code, timestamp) pair.  The
optional product-name backfill of lines 1392-1395 touches only the name
column and is not modelled. -/
def mergeManual (hist : List Rec) (new : List NewRec) (now : ℕ) : List Rec :=
  dedupByCodeTime (sortDescTime (hist ++ stampAll now new))

/-- Test for a row carrying the given product code. -/
def codeIs (c : String) (x : Rec) : Bool := x.code == c

/-- First row of the store carrying the given product code. -/
def lookupRow (store : List Rec) (c : String) : Option Rec :=
  store.find? (codeIs c)

/-- Price resolution of the left join on `商品编码` followed by
`fillna(0)` (lines 1684-1691): the joined store has one row per code, a
missing code resolves to price 0. -/
def resolvePrice (store : List Rec) (c : String) : ℚ :=
  match lookupRow store c with
  | some r => r.price
  | none => 0

/-- Derivation of one calculated line from one sales row, mirroring the
elementwise effect of `calculate_margin` lines 1691-1706 on that row:
resolve the purchase price, compute sale amount, purchase cost, margin and
the `np.where`-guarded margin rate, then round the monetary columns and the
rate to 2 decimals and coerce the quantity to `int`.  Any `TypeError` of
the vectorised pandas operations aborts the computation. -/
def calcRow (resolve : String → ℚ) (row : RawSalesRow) : Except String CalcLine := do
  let r := resolve row.code
  let sale ← pyMul row.qty row.price
  let cost ← pyMul row.qty (.num r)
  let marg ← pySub sale cost
  let pos ← pyGtZero sale
  let rate ← if pos then do
      let d ← pyDiv marg sale
      pyMul d (.num 100)
    else pure (.num 0)
  let priceR ← pyRound2 row.price
  let saleR ← pyRound2 sale
  let costR ← pyRound2 cost
  let margR ← pyRound2 marg
  let rateR ← pyRound2 rate
  let qtyI ← pyToInt row.qty
  match priceR, saleR, costR, margR, rateR with
  | .num p, .num s, .num c, .num m, .num t =>
      .ok { code := row.code, qty := qtyI, unitPrice := p,
            purchasePrice := round2 r, saleAmount := s,
            purchaseCost := c, margin := m, marginRate := t }
  | _, _, _, _, _ => .error "TypeError: nonnumeric after round"

/-- Column-by-column computation over all sales rows; one failing cell
aborts the whole frame computation, as a raised `TypeError` aborts the
vectorised operation (and with it the run). -/
def computeLines (resolve : String → ℚ) : List RawSalesRow → Except String (List CalcLine)
  | [] => .ok []
  | row :: rows => do
      let line ← calcRow resolve row
      let rest ← computeLines resolve rows
      .ok (line :: rest)

/-- A monthly or yearly rollup bucket, as stored in `monthly_data` /
`yearly_data`. -/
structure Bucket where
  total_sales : ℚ
  total_cost : ℚ
  total_margin : ℚ
  margin_rate : ℚ
  product_count : ℕ
deriving DecidableEq

/-- The zeroed bucket a period receives on first sight
(`update_cumulative_data` lines 1763-1770 and 1786-1793). -/
def emptyBucket : Bucket :=
  { total_sales := 0, total_cost := 0, total_margin := 0,
    margin_rate := 0, product_count := 0 }

/-- A period-keyed dictionary of buckets. -/
def BucketMap : Type := String → Option Bucket

/-- Access with create-on-first-sight default. -/
def getOr (m : BucketMap) (k : String) : Bucket := (m k).getD emptyBucket

/-- Dictionary update. -/
def setB (m : BucketMap) (k : String) (b : Bucket) : BucketMap :=
  fun q => if q = k then some b else m q

/-- Period totals of one run, computed by `update_cumulative_data`
lines 1757-1761 from the calculated frame. -/
structure RunTotals where
  sales : ℚ
  cost : ℚ
  margin : ℚ
  products : ℕ
deriving DecidableEq

/-- Sum of the derived columns and the distinct-product-code count
(`nunique`) of one calculated frame. -/
def runTotals (lines : List CalcLine) : RunTotals :=
  { sales := (lines.map CalcLine.saleAmount).sum,
    cost := (lines.map CalcLine.purchaseCost).sum,
    margin := (lines.map CalcLine.margin).sum,
    products := ((lines.map CalcLine.code).dedup).length }

/-- In-place update of one bucket by one run's totals
(`update_cumulative_data` lines 1772-1784 and 1795-1807): totals are added;
the margin rate is recomputed only when the cumulative total sales are
positive; the product count becomes the maximum of the stored and the
run's distinct-product count. -/
def updateBucket (b : Bucket) (t : RunTotals) : Bucket :=
  let b1 : Bucket :=
    { b with total_sales := b.total_sales + t.sales,
             total_cost := b.total_cost + t.cost,
             total_margin := b.total_margin + t.margin }
  let b2 : Bucket :=
    if 0 < b1.total_sales
    then { b1 with margin_rate := b1.total_margin / b1.total_sales * 100 }
    else b1
  { b2 with product_count := max b2.product_count t.products }

/-- Splitting of a character list at `-`, the effect of the `%Y-%m-%d`
field separators of `strptime`. -/
def splitDashAux : List Char → List Char → List (List Char)
  | [], acc => [acc.reverse]
  | c :: cs, acc =>
      if c = '-' then acc.reverse :: splitDashAux cs []
      else splitDashAux cs (c :: acc)

/-- Digit-list to number. -/
def digitsVal (cs : List Char) : ℕ :=
  cs.foldl (fun n c => 10 * n + (c.toNat - '0'.toNat)) 0

/-- Whether a field is a nonempty digit string of at most `k` characters. -/
def digitField (cs : List Char) (k : ℕ) : Bool :=
  decide (1 ≤ cs.length) && decide (cs.length ≤ k) && cs.all Char.isDigit

/-- Two-digit zero padding of `strftime('%m')`. -/
def pad2 (n : ℕ) : String := if n < 10 then "0" ++ toString n else toString n

/-- Parsing of `datetime.strptime(date_str, '%Y-%m-%d')` followed by the
key extraction `strftime('%Y-%m')` / `strftime('%Y')`: three dash-separated
digit fields, a four-digit year, a month in 1..12, a day in 1..31; on
success the month key and the year key, on failure `none` (a raised
`ValueError`).  The finer day-of-month calendar validation of `datetime`
is not modelled; no claim depends on it. -/
def parseYMD (s : String) : Option (String × String) :=
  match splitDashAux s.toList [] with
  | [y, m, d] =>
      if digitField y 4 && decide (y.length = 4) && digitField m 2 && digitField d 2 then
        let mn := digitsVal m
        let dn := digitsVal d
        if 1 ≤ mn ∧ mn ≤ 12 ∧ 1 ≤ dn ∧ dn ≤ 31 then
          some (String.mk y ++ "-" ++ pad2 mn, String.mk y)
        else none
      else none
  | _ => none

/-- `update_cumulative_data` (lines 1750-1814): the whole body runs under
one `try/except` that only logs.  A date string `strptime` rejects leaves
both dictionaries untouched; otherwise the month and year buckets are
created on first sight and updated, and the best-effort persist
(`save_cumulative_data`, itself a logged `try/except`) influences only the
log, never the dictionaries. -/
def updateCumulativeData (monthly yearly : BucketMap) (lines : List CalcLine)
    (dateStr : String) (diskOk : Bool) : (BucketMap × BucketMap) × List String :=
  match parseYMD dateStr with
  | none => ((monthly, yearly), ["update cumulative failed: bad date"])
  | some (mk, yk) =>
      let t := runTotals lines
      let monthly2 := setB monthly mk (updateBucket (getOr monthly mk) t)
      let yearly2 := setB yearly yk (updateBucket (getOr yearly yk) t)
      ((monthly2, yearly2),
        if diskOk then ["cumulative data saved"] else ["save cumulative failed"])

/-- A sequence of calculation runs hitting the rollup accumulator: each run
contributes its calculated frame and its date string, and the two
dictionaries are threaded through `update_cumulative_data`. -/
def applyRuns (monthly yearly : BucketMap) (runs : List (List CalcLine × String))
    (disk : Bool) : BucketMap × BucketMap :=
  runs.foldl (fun p run => (updateCumulativeData p.1 p.2 run.1 run.2 disk).1)
    (monthly, yearly)

/-- Everything a successful calculation run produces and mutates: the
exported report rows, the merged history store and the rollup
dictionaries. -/
structure RunOutcome where
  report : List CalcLine
  history : List Rec
  monthly : BucketMap
  yearly : BucketMap

/-- The calculation run `calculate_margin` (lines 1606-1748) reduced to the
modelled collaborators, in source order: merge the latest purchase rows
into the history store; persist it best-effort (log only); derive the
calculated frame, where any cell-level `TypeError` is caught by the
run-level `except` — the run fails with that error and no report is
produced; update the rollup dictionaries (never raises); produce the
report.  The two disk parameters give the outcomes of the best-effort
persists. -/
def calculateMargin (hist : Option (List Rec)) (monthly yearly : BucketMap)
    (sales : List RawSalesRow) (latest : List NewRec) (now : ℕ) (dateStr : String)
    (diskHistOk diskCumOk : Bool) : Except String RunOutcome × List String :=
  let store := mergeCalc (hist.getD []) latest now
  let log1 := if diskHistOk then ["history data saved"] else ["save history failed"]
  match computeLines (resolvePrice store) sales with
  | .error e => (.error e, log1 ++ ["analysis failed: " ++ e])
  | .ok lines =>
      let u := updateCumulativeData monthly yearly lines dateStr diskCumOk
      (.ok { report := lines, history := store,
             monthly := u.1.1, yearly := u.1.2 },
       log1 ++ u.2)

/-- The `purchase_history` entry of the synonym table in
`auto_rename_columns` (lines 1834-1839). -/
def purchaseHistoryMapping : List (String × List String) :=
  [("商品编码", ["商品编码", "商品代码", "编码", "货号", "SKU", "Product Code"]),
   ("采购单价", ["采购单价", "采购价", "进价", "成本价", "Cost"]),
   ("建单时间", ["建单时间", "创建时间", "下单时间", "时间", "日期", "Date"]),
   ("商品名称", ["商品名称", "商品名", "产品名称", "品名", "Product Name"])]

/-- ASCII lowercasing of one character, the effect of Python `str.lower()`
on the headers and synonyms involved (all non-ASCII synonym characters are
caseless). -/
def lowerChar (c : Char) : Char :=
  if 'A' ≤ c ∧ c ≤ 'Z' then Char.ofNat (c.toNat + 32) else c

/-- Lowercased character sequence of a header. -/
def lowerStr (s : String) : List Char := s.data.map lowerChar

/-- Lookup in `df_columns_lower`, the dict built once from the original
column headers keyed by their lowercasing; on duplicate keys the last
header wins, as in a Python dict comprehension. -/
def dictLookup (cols0 : List String) (key : List Char) : Option String :=
  cols0.reverse.find? fun c => lowerStr c == key

/-- First synonym whose lowercasing appears among the original headers,
returning that original header (the `for name in possible_names ... break`
loop). -/
def firstMatch (cols0 : List String) : List String → Option String
  | [] => none
  | n :: ns =>
      match dictLookup cols0 (lowerStr n) with
      | some orig => some orig
      | none => firstMatch cols0 ns

/-- `df.rename(columns={orig: target})`: renames every column equal to
`orig`; a no-op when `orig` is absent. -/
def renameCol (cols : List String) (orig target : String) : List String :=
  cols.map fun c => if c = orig then target else c

/-- `auto_rename_columns` (lines 1816-1853) on a header list: for each
canonical column not already present, rename the first matching synonym
header (matched case-insensitively against the original headers) to the
canonical name. -/
def autoRenameColumns (mapping : List (String × List String))
    (cols0 : List String) : List String :=
  mapping.foldl
    (fun cols tn =>
      if tn.1 ∈ cols then cols
      else
        match firstMatch cols0 tn.2 with
        | some orig => renameCol cols orig tn.1
        | none => cols)
    cols0

/-- The hard column requirement of the manual history load
(`load_history_data` line 903). -/
def requiredHistoryCols : List String := ["商品编码", "采购单价", "建单时间"]

/-- The `missing_cols` comprehension of line 904, applied after
normalization. -/
def missingHistoryCols (cols : List String) : List String :=
  requiredHistoryCols.filter
    fun c => decide (c ∉ autoRenameColumns purchaseHistoryMapping cols)

/-- The manual history load `load_history_data` (lines 898-912), modelled
on the header list of the chosen table (rows beyond their headers play no
role in the validation): normalize the headers; when any required column is
missing raise a `ValueError` naming exactly the missing columns — the
surrounding `except` then leaves the in-memory store untouched; otherwise
replace the store by the loaded table.  The result is the new store
paired with the raised validation error, if any. -/
def loadHistoryData (store : Option (List String)) (cols : List String) :
    Option (List String) × Option (List String) :=
  let renamed := autoRenameColumns purchaseHistoryMapping cols
  let missing := missingHistoryCols cols
  if missing.isEmpty then (some renamed, none) else (store, some missing)

/-- The in-memory configuration dictionary: the keys of `default_config`
(lines 141-147) plus `create_charts`, which `save_settings` also stores. -/
structure Config where
  export_path : String
  auto_open : Bool
  create_subfolders : Bool
  date_format : String
  remember_history : Bool
  create_charts : Bool
deriving DecidableEq

/-- `save_config` (lines 164-170): `json.dump` of the configuration
wrapped in a `try/except` that only logs — a failed write yields a log
entry and no exception reaches the caller. -/
def saveConfig (diskOk : Bool) : List String :=
  if diskOk then [] else ["save config failed"]

/-- `change_export_path` (lines 995-1002): store the chosen path into the
in-memory configuration, persist best-effort via `save_config`, then log
and report success.  The disk outcome reaches only the log; the updated
configuration and the completion of the operation do not depend on it. -/
def changeExportPath (cfg : Config) (path : String) (diskOk : Bool) :
    Config × List String :=
  let cfg2 : Config := { cfg with export_path := path }
  (cfg2, saveConfig diskOk ++ ["export path updated"])

/-- The settings dialog's save action `save_settings` (lines 1080-1098):
overwrite the four edited keys of the in-memory configuration, persist
best-effort via `save_config`, then log and report success.  (The
conditional removal of the history file at lines 1090-1094, itself
failure-suppressed, touches no modelled state.) -/
def saveSettings (cfg : Config) (path : String)
    (autoOpen rememberHistory createCharts : Bool) (diskOk : Bool) :
    Config × List String :=
  let cfg2 : Config :=
    { cfg with
      export_path := path
      auto_open := autoOpen
      remember_history := rememberHistory
      create_charts := createCharts }
  (cfg2, saveConfig diskOk ++ ["settings saved"])

/-! Helper lemmas about deduplication, sorting and store lookup. -/

theorem codeIs_true {c : String} {x : Rec} (h : x.code = c) : codeIs c x = true := by
  simp [codeIs, h]

theorem codeIs_false {c : String} {x : Rec} (h : x.code ≠ c) : codeIs c x = false := by
  simp [codeIs, h]

theorem code_eq_of_codeIs {c : String} {x : Rec} (h : codeIs c x = true) : x.code = c := by
  simpa [codeIs] using h

theorem find?_cons_pos {p : Rec → Bool} {a : Rec} {l : List Rec} (h : p a = true) :
    List.find? p (a :: l) = some a := by
  simp [List.find?_cons, h]

theorem find?_cons_neg {p : Rec → Bool} {a : Rec} {l : List Rec} (h : p a = false) :
    List.find? p (a :: l) = List.find? p l := by
  simp [List.find?_cons, h]

theorem mem_of_mem_dedupByCodeAux {x : Rec} :
    ∀ {seen : List String} {l : List Rec}, x ∈ dedupByCodeAux seen l → x ∈ l := by
  intro seen l
  induction l generalizing seen with
  | nil => intro h; simp [dedupByCodeAux] at h
  | cons y ys ih =>
      intro h
      by_cases hy : y.code ∈ seen
      · simp only [dedupByCodeAux, if_pos hy] at h
        exact List.mem_cons_of_mem _ (ih h)
      · simp only [dedupByCodeAux, if_neg hy, List.mem_cons] at h
        rcases h with h | h
        · exact h ▸ List.mem_cons_self _ _
        · exact List.mem_cons_of_mem _ (ih h)

theorem code_not_seen_of_mem_dedupByCodeAux {x : Rec} :
    ∀ {seen : List String} {l : List Rec}, x ∈ dedupByCodeAux seen l → x.code ∉ seen := by
  intro seen l
  induction l generalizing seen with
  | nil => intro h; simp [dedupByCodeAux] at h
  | cons y ys ih =>
      intro h
      by_cases hy : y.code ∈ seen
      · simp only [dedupByCodeAux, if_pos hy] at h
        exact ih h
      · simp only [dedupByCodeAux, if_neg hy, List.mem_cons] at h
        rcases h with h | h
        · exact h ▸ hy
        · intro hc
          exact (ih h) (List.mem_cons_of_mem _ hc)

theorem find?_dedupByCodeAux {c : String} :
    ∀ {seen : List String} (l : List Rec), c ∉ seen →
      (dedupByCodeAux seen l).find? (codeIs c) = l.find? (codeIs c) := by
  intro seen l
  induction l generalizing seen with
  | nil => intro _; rfl
  | cons y ys ih =>
      intro hc
      by_cases hyc : y.code = c
      · have hy : y.code ∉ seen := by rw [hyc]; exact hc
        simp only [dedupByCodeAux, if_neg hy]
        rw [find?_cons_pos (codeIs_true hyc), find?_cons_pos (codeIs_true hyc)]
      · by_cases hy : y.code ∈ seen
        · simp only [dedupByCodeAux, if_pos hy]
          rw [find?_cons_neg (codeIs_false hyc), ih hc]
        · simp only [dedupByCodeAux, if_neg hy]
          rw [find?_cons_neg (codeIs_false hyc), find?_cons_neg (codeIs_false hyc)]
          exact ih (by simp [hc, Ne.symm hyc])

theorem find?_dedupByCode (l : List Rec) (c : String) :
    (dedupByCode l).find? (codeIs c) = l.find? (codeIs c) :=
  find?_dedupByCodeAux l (by simp)

theorem find?_eq_of_mem_dedupByCodeAux {x : Rec} :
    ∀ {seen : List String} {l : List Rec}, x ∈ dedupByCodeAux seen l →
      l.find? (codeIs x.code) = some x := by
  intro seen l
  induction l generalizing seen with
  | nil => intro h; simp [dedupByCodeAux] at h
  | cons y ys ih =>
      intro h
      by_cases hy : y.code ∈ seen
      · simp only [dedupByCodeAux, if_pos hy] at h
        have hxs : x.code ∉ seen := code_not_seen_of_mem_dedupByCodeAux h
        have hne : y.code ≠ x.code := fun he => hxs (he ▸ hy)
        rw [find?_cons_neg (codeIs_false hne)]
        exact ih h
      · simp only [dedupByCodeAux, if_neg hy, List.mem_cons] at h
        rcases h with h | h
        · subst h
          exact find?_cons_pos (codeIs_true rfl)
        · have hxs : x.code ∉ y.code :: seen := code_not_seen_of_mem_dedupByCodeAux h
          have hne : y.code ≠ x.code := fun he => hxs (he ▸ List.mem_cons_self _ _)
          rw [find?_cons_neg (codeIs_false hne)]
          exact ih h

theorem nodup_codes_dedupByCodeAux :
    ∀ (seen : List String) (l : List Rec), ((dedupByCodeAux seen l).map Rec.code).Nodup := by
  intro seen l
  induction l generalizing seen with
  | nil => simp [dedupByCodeAux]
  | cons y ys ih =>
      by_cases hy : y.code ∈ seen
      · simpa only [dedupByCodeAux, if_pos hy] using ih seen
      · simp only [dedupByCodeAux, if_neg hy, List.map_cons, List.nodup_cons]
        refine ⟨?_, ih _⟩
        intro hmem
        rcases List.mem_map.mp hmem with ⟨z, hz, hzc⟩
        exact (code_not_seen_of_mem_dedupByCodeAux hz) (hzc ▸ List.mem_cons_self _ _)

theorem sortDescTime_perm (l : List Rec) : List.Perm (sortDescTime l) l :=
  List.perm_insertionSort timeGE l

theorem sortDescTime_sorted (l : List Rec) : List.Sorted timeGE (sortDescTime l) :=
  List.sorted_insertionSort timeGE l

theorem find?_time_max {c : String} :
    ∀ {l : List Rec}, List.Sorted timeGE l →
      ∀ {x : Rec}, l.find? (codeIs c) = some x →
        ∀ y ∈ l, y.code = c → y.time ≤ x.time := by
  intro l
  induction l with
  | nil => intro _ x hf; simp at hf
  | cons a as ih =>
      intro hs x hf y hy hyc
      obtain ⟨ha, has⟩ := List.sorted_cons.mp hs
      by_cases hac : a.code = c
      · have hfa : List.find? (codeIs c) (a :: as) = some a := find?_cons_pos (codeIs_true hac)
        have hxa : x = a := by
          rw [hfa] at hf
          exact (Option.some_injective _ hf).symm
        subst hxa
        rcases List.mem_cons.mp hy with h | h
        · exact h ▸ le_refl _
        · exact ha y h
      · rw [find?_cons_neg (codeIs_false hac)] at hf
        rcases List.mem_cons.mp hy with h | h
        · exact absurd (h ▸ hyc) hac
        · exact ih has hf y h hyc

/-! Characterization of the calculation-run merge through `lookupRow`. -/

theorem lookupRow_mergeCalc_eq (hist : List Rec) (new : List NewRec) (now : ℕ) (c : String) :
    lookupRow (mergeCalc hist new now) c =
      (sortDescTime (hist ++ stampAll now new)).find? (codeIs c) :=
  find?_dedupByCode _ c

theorem lookupRow_mem {store : List Rec} {c : String} {x : Rec}
    (h : lookupRow store c = some x) : x ∈ store ∧ x.code = c :=
  ⟨List.mem_of_find?_eq_some h, code_eq_of_codeIs (List.find?_some h)⟩

theorem lookupRow_mergeCalc_some {hist : List Rec} {new : List NewRec} {now : ℕ}
    {c : String} {x : Rec} (h : lookupRow (mergeCalc hist new now) c = some x) :
    x ∈ hist ++ stampAll now new ∧ x.code = c ∧
      ∀ y ∈ hist ++ stampAll now new, y.code = c → y.time ≤ x.time := by
  rw [lookupRow_mergeCalc_eq] at h
  refine ⟨(sortDescTime_perm _).mem_iff.mp (List.mem_of_find?_eq_some h),
          code_eq_of_codeIs (List.find?_some h), ?_⟩
  intro y hy hyc
  exact find?_time_max (sortDescTime_sorted _) h y
    ((sortDescTime_perm _).mem_iff.mpr hy) hyc

theorem lookupRow_mergeCalc_none {hist : List Rec} {new : List NewRec} {now : ℕ}
    {c : String} (h : lookupRow (mergeCalc hist new now) c = none) :
    ∀ y ∈ hist ++ stampAll now new, y.code ≠ c := by
  rw [lookupRow_mergeCalc_eq] at h
  intro y hy hyc
  have := List.find?_eq_none.mp h y ((sortDescTime_perm _).mem_iff.mpr hy)
  exact this (codeIs_true hyc)

theorem lookupRow_mergeCalc_isSome {hist : List Rec} {new : List NewRec} {now : ℕ}
    {c : String} {y : Rec} (hy : y ∈ hist ++ stampAll now new) (hc : y.code = c) :
    ∃ x, lookupRow (mergeCalc hist new now) c = some x := by
  cases h : lookupRow (mergeCalc hist new now) c with
  | some x => exact ⟨x, rfl⟩
  | none => exact absurd hc (lookupRow_mergeCalc_none h y hy)

theorem mem_mergeCalc_subset {hist : List Rec} {new : List NewRec} {now : ℕ} {x : Rec}
    (h : x ∈ mergeCalc hist new now) : x ∈ hist ++ stampAll now new :=
  (sortDescTime_perm _).mem_iff.mp (mem_of_mem_dedupByCodeAux h)

theorem nodup_codes_mergeCalc (hist : List Rec) (new : List NewRec) (now : ℕ) :
    ((mergeCalc hist new now).map Rec.code).Nodup :=
  nodup_codes_dedupByCodeAux [] _

theorem mem_mergeCalc_time_max {hist : List Rec} {new : List NewRec} {now : ℕ} {x : Rec}
    (h : x ∈ mergeCalc hist new now) :
    ∀ y ∈ hist ++ stampAll now new, y.code = x.code → y.time ≤ x.time := by
  intro y hy hyc
  have hf : (sortDescTime (hist ++ stampAll now new)).find? (codeIs x.code) = some x :=
    find?_eq_of_mem_dedupByCodeAux h
  exact find?_time_max (sortDescTime_sorted _) hf y ((sortDescTime_perm _).mem_iff.mpr hy) hyc

/-! Helper lemmas about the per-row margin computation. -/

@[simp] theorem ok_bind {α β : Type} (a : α) (f : α → Except String β) :
    (Except.ok a : Except String α) >>= f = f a := rfl

@[simp] theorem error_bind {α β : Type} (e : String) (f : α → Except String β) :
    (Except.error e : Except String α) >>= f = Except.error e := rfl

theorem calcRow_num_eq (resolve : String → ℚ) (c : String) (q p : ℚ) :
    calcRow resolve ⟨c, .num q, .num p⟩ = .ok
      { code := c, qty := truncInt q, unitPrice := round2 p,
        purchasePrice := round2 (resolve c),
        saleAmount := round2 (q * p), purchaseCost := round2 (q * resolve c),
        margin := round2 (q * p - q * resolve c),
        marginRate := round2 (if 0 < q * p then (q * p - q * resolve c) / (q * p) * 100
                              else 0) } := by
  by_cases h : 0 < q * p
  · simp [calcRow, pyMul, pySub, pyGtZero, pyDiv, pyRound2, pyToInt, h]
  · simp [calcRow, pyMul, pySub, pyGtZero, pyDiv, pyRound2, pyToInt, h]

set_option maxHeartbeats 1000000 in
theorem calcRow_nonnum_error (resolve : String → ℚ) (row : RawSalesRow)
    (h : row.qty.isNum = false ∨ row.price.isNum = false) :
    ∃ e, calcRow resolve row = .error e := by
  obtain ⟨c, qv, pv⟩ := row
  cases qv with
  | num a =>
      cases pv with
      | num b => simp [CellVal.isNum] at h
      | str s =>
          by_cases ha : a.den = 1
          · exact ⟨"TypeError: sub", by simp [calcRow, pyMul, pySub, ha]⟩
          · exact ⟨"TypeError: mul", by simp [calcRow, pyMul, ha]⟩
  | str s =>
      cases pv with
      | num b =>
          by_cases hb : b.den = 1
          · by_cases hr : (resolve c).den = 1
            · exact ⟨"TypeError: sub", by simp [calcRow, pyMul, pySub, hb, hr]⟩
            · exact ⟨"TypeError: mul", by simp [calcRow, pyMul, hb, hr]⟩
          · exact ⟨"TypeError: mul", by simp [calcRow, pyMul, hb]⟩
      | str t => exact ⟨"TypeError: mul", by simp [calcRow, pyMul]⟩

theorem computeLines_error {resolve : String → ℚ} {rows : List RawSalesRow}
    (h : ∃ row ∈ rows, row.qty.isNum = false ∨ row.price.isNum = false) :
    ∃ e, computeLines resolve rows = .error e := by
  induction rows with
  | nil => simp at h
  | cons row rest ih =>
      rcases h with ⟨bad, hbad, hb⟩
      rcases List.mem_cons.mp hbad with hb1 | hb2
      · obtain ⟨e, he⟩ := calcRow_nonnum_error resolve row (hb1 ▸ hb)
        exact ⟨e, by simp [computeLines, he]⟩
      · cases hr : calcRow resolve row with
        | error e => exact ⟨e, by simp [computeLines, hr]⟩
        | ok line =>
            obtain ⟨e, he⟩ := ih ⟨bad, hb2, hb⟩
            exact ⟨e, by simp [computeLines, hr, he]⟩

theorem computeLines_all_num (resolve : String → ℚ) (rows : List RawSalesRow)
    (h : ∀ r ∈ rows, r.qty.isNum = true ∧ r.price.isNum = true) :
    ∃ lines, computeLines resolve rows = .ok lines ∧ lines.length = rows.length := by
  induction rows with
  | nil => exact ⟨[], rfl, rfl⟩
  | cons row rest ih =>
      obtain ⟨hq, hp⟩ := h row (List.mem_cons_self _ _)
      obtain ⟨lines, hl, hlen⟩ := ih fun r hr => h r (List.mem_cons_of_mem _ hr)
      obtain ⟨c, qv, pv⟩ := row
      cases qv with
      | str s => simp [CellVal.isNum] at hq
      | num a =>
          cases pv with
          | str s => simp [CellVal.isNum] at hp
          | num b =>
              obtain ⟨line, hline⟩ : ∃ line, calcRow resolve ⟨c, .num a, .num b⟩ = .ok line :=
                ⟨_, calcRow_num_eq resolve c a b⟩
              exact ⟨line :: lines, by simp [computeLines, hline, hl], by simp [hlen]⟩

/-! Helper lemmas about the rollup accumulator. -/

theorem updateBucket_total_sales (b : Bucket) (t : RunTotals) :
    (updateBucket b t).total_sales = b.total_sales + t.sales := by
  simp only [updateBucket]
  split <;> rfl

theorem updateBucket_total_cost (b : Bucket) (t : RunTotals) :
    (updateBucket b t).total_cost = b.total_cost + t.cost := by
  simp only [updateBucket]
  split <;> rfl

theorem updateBucket_total_margin (b : Bucket) (t : RunTotals) :
    (updateBucket b t).total_margin = b.total_margin + t.margin := by
  simp only [updateBucket]
  split <;> rfl

theorem updateBucket_product_count (b : Bucket) (t : RunTotals) :
    (updateBucket b t).product_count = max b.product_count t.products := by
  simp only [updateBucket]
  split <;> rfl

theorem updateBucket_margin_rate_pos (b : Bucket) (t : RunTotals)
    (h : 0 < (updateBucket b t).total_sales) :
    (updateBucket b t).margin_rate =
      (updateBucket b t).total_margin / (updateBucket b t).total_sales * 100 := by
  rw [updateBucket_total_sales] at h
  simp only [updateBucket, if_pos h]

theorem updateBucket_margin_rate_nonpos (b : Bucket) (t : RunTotals)
    (h : ¬ 0 < (updateBucket b t).total_sales) :
    (updateBucket b t).margin_rate = b.margin_rate := by
  rw [updateBucket_total_sales] at h
  simp only [updateBucket, if_neg h]

theorem getOr_setB_same (m : BucketMap) (k : String) (b : Bucket) :
    getOr (setB m k b) k = b := by
  simp [getOr, setB]

theorem setB_same (m : BucketMap) (k : String) (b : Bucket) :
    (setB m k b) k = some b := by
  simp [setB]

theorem updateCumulative_parse_some {mk yk : String} {dateStr : String}
    (hp : parseYMD dateStr = some (mk, yk)) (M Y : BucketMap)
    (lines : List CalcLine) (disk : Bool) :
    (updateCumulativeData M Y lines dateStr disk).1 =
      (setB M mk (updateBucket (getOr M mk) (runTotals lines)),
       setB Y yk (updateBucket (getOr Y yk) (runTotals lines))) := by
  simp [updateCumulativeData, hp]

theorem updateCumulative_parse_none {dateStr : String}
    (hp : parseYMD dateStr = none) (M Y : BucketMap)
    (lines : List CalcLine) (disk : Bool) :
    (updateCumulativeData M Y lines dateStr disk).1 = (M, Y) := by
  simp [updateCumulativeData, hp]

theorem applyRuns_invariant {mk yk : String} (disk : Bool) :
    ∀ (runs : List (List CalcLine × String)) (M Y : BucketMap),
      (∀ run ∈ runs, parseYMD run.2 = some (mk, yk)) →
      (getOr (applyRuns M Y runs disk).1 mk).total_sales
          = (getOr M mk).total_sales + (runs.map fun run => (runTotals run.1).sales).sum ∧
      (getOr (applyRuns M Y runs disk).1 mk).total_cost
          = (getOr M mk).total_cost + (runs.map fun run => (runTotals run.1).cost).sum ∧
      (getOr (applyRuns M Y runs disk).1 mk).total_margin
          = (getOr M mk).total_margin + (runs.map fun run => (runTotals run.1).margin).sum ∧
      (getOr (applyRuns M Y runs disk).1 mk).product_count
          = (runs.map fun run => (runTotals run.1).products).foldl max
              (getOr M mk).product_count ∧
      (getOr (applyRuns M Y runs disk).2 yk).total_sales
          = (getOr Y yk).total_sales + (runs.map fun run => (runTotals run.1).sales).sum ∧
      (getOr (applyRuns M Y runs disk).2 yk).total_cost
          = (getOr Y yk).total_cost + (runs.map fun run => (runTotals run.1).cost).sum ∧
      (getOr (applyRuns M Y runs disk).2 yk).total_margin
          = (getOr Y yk).total_margin + (runs.map fun run => (runTotals run.1).margin).sum ∧
      (getOr (applyRuns M Y runs disk).2 yk).product_count
          = (runs.map fun run => (runTotals run.1).products).foldl max
              (getOr Y yk).product_count := by
  intro runs
  induction runs with
  | nil =>
      intro M Y _
      simp [applyRuns]
  | cons run rest ih =>
      intro M Y hp
      have hrun : parseYMD run.2 = some (mk, yk) := hp run (List.mem_cons_self _ _)
      have hrest : ∀ r ∈ rest, parseYMD r.2 = some (mk, yk) :=
        fun r hr => hp r (List.mem_cons_of_mem _ hr)
      have hstep : applyRuns M Y (run :: rest) disk =
          applyRuns (setB M mk (updateBucket (getOr M mk) (runTotals run.1)))
                    (setB Y yk (updateBucket (getOr Y yk) (runTotals run.1))) rest disk := by
        simp only [applyRuns, List.foldl_cons]
        rw [updateCumulative_parse_some hrun]
      obtain ⟨h1, h2, h3, h4, h5, h6, h7, h8⟩ := ih _ _ hrest
      rw [hstep]
      refine ⟨?_, ?_, ?_, ?_, ?_, ?_, ?_, ?_⟩
      · rw [h1, getOr_setB_same, updateBucket_total_sales]
        simp [add_assoc]
      · rw [h2, getOr_setB_same, updateBucket_total_cost]
        simp [add_assoc]
      · rw [h3, getOr_setB_same, updateBucket_total_margin]
        simp [add_assoc]
      · rw [h4, getOr_setB_same, updateBucket_product_count]
        simp
      · rw [h5, getOr_setB_same, updateBucket_total_sales]
        simp [add_assoc]
      · rw [h6, getOr_setB_same, updateBucket_total_cost]
        simp [add_assoc]
      · rw [h7, getOr_setB_same, updateBucket_total_margin]
        simp [add_assoc]
      · rw [h8, getOr_setB_same, updateBucket_product_count]
        simp

theorem applyRuns_buckets_exist {mk yk : String} (disk : Bool) :
    ∀ (runs : List (List CalcLine × String)) (M Y : BucketMap),
      (∀ run ∈ runs, parseYMD run.2 = some (mk, yk)) → runs ≠ [] →
      (applyRuns M Y runs disk).1 mk = some (getOr (applyRuns M Y runs disk).1 mk) ∧
      (applyRuns M Y runs disk).2 yk = some (getOr (applyRuns M Y runs disk).2 yk) := by
  intro runs
  induction runs with
  | nil => intro M Y _ hne; exact absurd rfl hne
  | cons run rest ih =>
      intro M Y hp _
      have hrun : parseYMD run.2 = some (mk, yk) := hp run (List.mem_cons_self _ _)
      have hrest : ∀ r ∈ rest, parseYMD r.2 = some (mk, yk) :=
        fun r hr => hp r (List.mem_cons_of_mem _ hr)
      have hstep : applyRuns M Y (run :: rest) disk =
          applyRuns (setB M mk (updateBucket (getOr M mk) (runTotals run.1)))
                    (setB Y yk (updateBucket (getOr Y yk) (runTotals run.1))) rest disk := by
        simp only [applyRuns, List.foldl_cons]
        rw [updateCumulative_parse_some hrun]
      rw [hstep]
      cases rest with
      | nil =>
          constructor
          · simp [applyRuns, setB, getOr]
          · simp [applyRuns, setB, getOr]
      | cons r2 rest2 => exact ih _ _ hrest (by simp)

/-! Claim theorems. -/

/-- C1: every sales row processed by a calculation run gets
sale_amount = quantity × unit_price, purchase_cost = quantity × resolved
purchase price, margin = sale_amount − purchase_cost, and margin_rate =
margin / sale_amount × 100 when sale_amount > 0 and 0 otherwise, every
derived monetary field and the margin rate rounded to 2 decimals; in
particular the row (SP001, qty 10, unit price 100.00) with resolved
purchase price 60.00 yields 1000.00 / 600.00 / 400.00 / 40.00. -/
theorem margin_formulas_and_example :
    (∀ (resolve : String → ℚ) (c : String) (q p : ℚ),
        calcRow resolve ⟨c, .num q, .num p⟩ = .ok
          { code := c, qty := truncInt q, unitPrice := round2 p,
            purchasePrice := round2 (resolve c),
            saleAmount := round2 (q * p), purchaseCost := round2 (q * resolve c),
            margin := round2 (q * p - q * resolve c),
            marginRate := round2 (if 0 < q * p then (q * p - q * resolve c) / (q * p) * 100
                                  else 0) }) ∧
    calcRow (resolvePrice [⟨"SP001", 60, 5⟩]) ⟨"SP001", .num 10, .num 100⟩ = .ok
      { code := "SP001", qty := 10, unitPrice := 100, purchasePrice := 60,
        saleAmount := 1000, purchaseCost := 600, margin := 400, marginRate := 40 } :=
  ⟨calcRow_num_eq, by decide⟩

/-- C4: a sales row whose product code is absent from the merged history
store resolves its purchase price to 0, so it gets purchase_cost = 0,
margin = sale_amount and margin_rate = 100.00 when sale_amount > 0; the
row is still produced, not dropped. -/
theorem missing_price_resolves_zero (store : List Rec) (c : String) (q p : ℚ)
    (h : lookupRow store c = none) :
    calcRow (resolvePrice store) ⟨c, .num q, .num p⟩ = .ok
      { code := c, qty := truncInt q, unitPrice := round2 p, purchasePrice := 0,
        saleAmount := round2 (q * p), purchaseCost := 0, margin := round2 (q * p),
        marginRate := if 0 < q * p then 100 else 0 } := by
  have h0 : round2 0 = 0 := by decide
  have h100 : round2 100 = 100 := by decide
  have hr : resolvePrice store c = 0 := by simp [resolvePrice, h]
  rw [calcRow_num_eq, hr]
  by_cases hq : 0 < q * p
  · simp [mul_zero, sub_zero, if_pos hq, div_self hq.ne', h0, h100]
  · simp [mul_zero, sub_zero, if_neg hq, h0]

/-- Witness for C4 at a concrete store and row. -/
theorem missing_price_resolves_zero_witness :
    lookupRow [⟨"B", 50, 1⟩] "A" = none ∧
    calcRow (resolvePrice [⟨"B", 50, 1⟩]) ⟨"A", .num 2, .num 3⟩ = .ok
      { code := "A", qty := truncInt 2, unitPrice := round2 3, purchasePrice := 0,
        saleAmount := round2 (2 * 3), purchaseCost := 0, margin := round2 (2 * 3),
        marginRate := if 0 < (2:ℚ) * 3 then 100 else 0 } :=
  ⟨by decide, missing_price_resolves_zero [⟨"B", 50, 1⟩] "A" 2 3 (by decide)⟩

/-- C7: a calculation run containing a sales row with a non-numeric
quantity or price fails as a whole with an error and produces no report:
the run result is an error, not a report-bearing outcome. -/
theorem nonnumeric_aborts_run (hist : Option (List Rec)) (M Y : BucketMap)
    (sales : List RawSalesRow) (latest : List NewRec) (now : ℕ) (dateStr : String)
    (d1 d2 : Bool)
    (h : ∃ row ∈ sales, row.qty.isNum = false ∨ row.price.isNum = false) :
    ∃ e, (calculateMargin hist M Y sales latest now dateStr d1 d2).1 = .error e := by
  obtain ⟨e, he⟩ :=
    @computeLines_error (resolvePrice (mergeCalc (hist.getD []) latest now)) sales h
  exact ⟨e, by simp [calculateMargin, he]⟩

/-- Witness for C7 at a concrete run with a non-numeric quantity cell. -/
theorem nonnumeric_aborts_run_witness :
    (∃ row ∈ [RawSalesRow.mk "A" (.str "abc") (.num 5)],
        row.qty.isNum = false ∨ row.price.isNum = false) ∧
    ∃ e, (calculateMargin none (fun _ => none) (fun _ => none)
        [RawSalesRow.mk "A" (.str "abc") (.num 5)] [] 7 "2024-01-15" true true).1 =
      .error e :=
  ⟨by decide,
   nonnumeric_aborts_run none (fun _ => none) (fun _ => none)
     [RawSalesRow.mk "A" (.str "abc") (.num 5)] [] 7 "2024-01-15" true true (by decide)⟩

/-- C8: the manual history load raises a validation error naming exactly
the missing required columns if and only if at least one of product code,
purchase price, record timestamp is absent after column normalization, and
on that error the in-memory store is unchanged; otherwise the load
replaces the store and raises nothing. -/
theorem history_load_validation (store : Option (List String)) (cols : List String) :
    loadHistoryData store cols =
      if missingHistoryCols cols = []
      then (some (autoRenameColumns purchaseHistoryMapping cols), none)
      else (store, some (missingHistoryCols cols)) := by
  simp only [loadHistoryData]
  rcases hm : missingHistoryCols cols with _ | ⟨a, l⟩
  · simp
  · simp

/-- C9: a failed disk persist of the history store, the rollup buckets or
the configuration is logged, never propagated: the outcome of a
calculation run — the error or the produced report, history store and
rollup dictionaries — and the configuration produced by the two
config-saving operations are identical whatever the outcomes of the
best-effort persists. -/
theorem persist_failure_never_propagates (hist : Option (List Rec)) (M Y : BucketMap)
    (sales : List RawSalesRow) (latest : List NewRec) (now : ℕ) (dateStr : String)
    (cfg : Config) (path : String) (autoOpen rememberHistory createCharts : Bool)
    (d1 d2 d1s d2s dc dcs : Bool) :
    ((calculateMargin hist M Y sales latest now dateStr d1 d2).1 =
      (calculateMargin hist M Y sales latest now dateStr d1s d2s).1) ∧
    ((changeExportPath cfg path dc).1 = (changeExportPath cfg path dcs).1) ∧
    ((saveSettings cfg path autoOpen rememberHistory createCharts dc).1 =
      (saveSettings cfg path autoOpen rememberHistory createCharts dcs).1) := by
  refine ⟨?_, rfl, rfl⟩
  simp only [calculateMargin]
  cases hc : computeLines (resolvePrice (mergeCalc (hist.getD []) latest now)) sales with
  | error e => rfl
  | ok lines =>
      cases hp : parseYMD dateStr with
      | none => simp [updateCumulativeData, hp]
      | some p => simp [updateCumulativeData, hp]

/-- C10: the rollup update never propagates a failure: with a date string
its parser rejects, the rollup dictionaries are left untouched and the
calculation run still completes with its report. -/
theorem rollup_failure_run_still_reports (hist : Option (List Rec)) (M Y : BucketMap)
    (sales : List RawSalesRow) (latest : List NewRec) (now : ℕ) (dateStr : String)
    (d1 d2 : Bool)
    (hnum : ∀ r ∈ sales, r.qty.isNum = true ∧ r.price.isNum = true)
    (hdate : parseYMD dateStr = none) :
    ∃ out, (calculateMargin hist M Y sales latest now dateStr d1 d2).1 = .ok out ∧
      out.monthly = M ∧ out.yearly = Y := by
  obtain ⟨lines, hl, _⟩ :=
    computeLines_all_num (resolvePrice (mergeCalc (hist.getD []) latest now)) sales hnum
  exact ⟨{ report := lines, history := mergeCalc (hist.getD []) latest now,
           monthly := M, yearly := Y },
         by simp [calculateMargin, hl, updateCumulativeData, hdate], rfl, rfl⟩

/-- Witness for C10 at a concrete numeric run with an unparsable date. -/
theorem rollup_failure_run_still_reports_witness :
    (∀ r ∈ [RawSalesRow.mk "A" (.num 2) (.num 3)],
        r.qty.isNum = true ∧ r.price.isNum = true) ∧
    parseYMD "not-a-date" = none ∧
    ∃ out, (calculateMargin none (fun _ => none) (fun _ => none)
        [RawSalesRow.mk "A" (.num 2) (.num 3)] [] 7 "not-a-date" true true).1 = .ok out ∧
      out.monthly = (fun _ => none) ∧ out.yearly = (fun _ => none) :=
  ⟨by decide, by decide,
   rollup_failure_run_still_reports none (fun _ => none) (fun _ => none)
     [RawSalesRow.mk "A" (.num 2) (.num 3)] [] 7 "not-a-date" true true
     (by decide) (by decide)⟩

/-- C2: after N calculation runs whose rows fall in the same period, the
period's monthly and yearly buckets hold totals equal to the sum of the
run-level totals over the N runs, and a product count equal to the maximum
over the N runs of each run's distinct-product-code count. -/
theorem rollup_additive_totals_and_max_products (M Y : BucketMap) (mk yk : String)
    (runs : List (List CalcLine × String)) (disk : Bool)
    (hp : ∀ run ∈ runs, parseYMD run.2 = some (mk, yk))
    (hM : M mk = none) (hY : Y yk = none) (hne : runs ≠ []) :
    ∃ bm bY,
      (applyRuns M Y runs disk).1 mk = some bm ∧
      (applyRuns M Y runs disk).2 yk = some bY ∧
      bm.total_sales = (runs.map fun run => (runTotals run.1).sales).sum ∧
      bm.total_cost = (runs.map fun run => (runTotals run.1).cost).sum ∧
      bm.total_margin = (runs.map fun run => (runTotals run.1).margin).sum ∧
      bm.product_count = (runs.map fun run => (runTotals run.1).products).foldl max 0 ∧
      bY.total_sales = (runs.map fun run => (runTotals run.1).sales).sum ∧
      bY.total_cost = (runs.map fun run => (runTotals run.1).cost).sum ∧
      bY.total_margin = (runs.map fun run => (runTotals run.1).margin).sum ∧
      bY.product_count = (runs.map fun run => (runTotals run.1).products).foldl max 0 := by
  obtain ⟨h1, h2, h3, h4, h5, h6, h7, h8⟩ := applyRuns_invariant disk runs M Y hp
  obtain ⟨hm, hy⟩ := applyRuns_buckets_exist disk runs M Y hp hne
  have hgm : getOr M mk = emptyBucket := by simp [getOr, hM]
  have hgy : getOr Y yk = emptyBucket := by simp [getOr, hY]
  rw [hgm] at h1 h2 h3 h4
  rw [hgy] at h5 h6 h7 h8
  refine ⟨getOr (applyRuns M Y runs disk).1 mk, getOr (applyRuns M Y runs disk).2 yk,
          hm, hy, ?_, ?_, ?_, ?_, ?_, ?_, ?_, ?_⟩
  · rw [h1]; simp [emptyBucket]
  · rw [h2]; simp [emptyBucket]
  · rw [h3]; simp [emptyBucket]
  · rw [h4]; simp [emptyBucket]
  · rw [h5]; simp [emptyBucket]
  · rw [h6]; simp [emptyBucket]
  · rw [h7]; simp [emptyBucket]
  · rw [h8]; simp [emptyBucket]

/-- Witness for C2 at two concrete runs in the same month. -/
theorem rollup_additive_totals_and_max_products_witness :
    (∀ run ∈ [([(⟨"A", 1, 100, 50, 100, 50, 50, 50⟩ : CalcLine)], "2024-01-15"),
              ([(⟨"B", 2, 10, 5, 20, 10, 10, 50⟩ : CalcLine)], "2024-01-20")],
        parseYMD run.2 = some ("2024-01", "2024")) ∧
    ((fun _ : String => (none : Option Bucket)) "2024-01" = none) ∧
    ((fun _ : String => (none : Option Bucket)) "2024" = none) ∧
    ([([(⟨"A", 1, 100, 50, 100, 50, 50, 50⟩ : CalcLine)], "2024-01-15"),
      ([(⟨"B", 2, 10, 5, 20, 10, 10, 50⟩ : CalcLine)], "2024-01-20")] ≠ []) ∧
    (∃ bm bY,
      (applyRuns (fun _ => none) (fun _ => none)
          [([(⟨"A", 1, 100, 50, 100, 50, 50, 50⟩ : CalcLine)], "2024-01-15"),
           ([(⟨"B", 2, 10, 5, 20, 10, 10, 50⟩ : CalcLine)], "2024-01-20")] true).1 "2024-01"
        = some bm ∧
      (applyRuns (fun _ => none) (fun _ => none)
          [([(⟨"A", 1, 100, 50, 100, 50, 50, 50⟩ : CalcLine)], "2024-01-15"),
           ([(⟨"B", 2, 10, 5, 20, 10, 10, 50⟩ : CalcLine)], "2024-01-20")] true).2 "2024"
        = some bY ∧
      bm.total_sales = ([([(⟨"A", 1, 100, 50, 100, 50, 50, 50⟩ : CalcLine)], "2024-01-15"),
           ([(⟨"B", 2, 10, 5, 20, 10, 10, 50⟩ : CalcLine)], "2024-01-20")].map
             fun run => (runTotals run.1).sales).sum ∧
      bm.total_cost = ([([(⟨"A", 1, 100, 50, 100, 50, 50, 50⟩ : CalcLine)], "2024-01-15"),
           ([(⟨"B", 2, 10, 5, 20, 10, 10, 50⟩ : CalcLine)], "2024-01-20")].map
             fun run => (runTotals run.1).cost).sum ∧
      bm.total_margin = ([([(⟨"A", 1, 100, 50, 100, 50, 50, 50⟩ : CalcLine)], "2024-01-15"),
           ([(⟨"B", 2, 10, 5, 20, 10, 10, 50⟩ : CalcLine)], "2024-01-20")].map
             fun run => (runTotals run.1).margin).sum ∧
      bm.product_count = ([([(⟨"A", 1, 100, 50, 100, 50, 50, 50⟩ : CalcLine)], "2024-01-15"),
           ([(⟨"B", 2, 10, 5, 20, 10, 10, 50⟩ : CalcLine)], "2024-01-20")].map
             fun run => (runTotals run.1).products).foldl max 0 ∧
      bY.total_sales = ([([(⟨"A", 1, 100, 50, 100, 50, 50, 50⟩ : CalcLine)], "2024-01-15"),
           ([(⟨"B", 2, 10, 5, 20, 10, 10, 50⟩ : CalcLine)], "2024-01-20")].map
             fun run => (runTotals run.1).sales).sum ∧
      bY.total_cost = ([([(⟨"A", 1, 100, 50, 100, 50, 50, 50⟩ : CalcLine)], "2024-01-15"),
           ([(⟨"B", 2, 10, 5, 20, 10, 10, 50⟩ : CalcLine)], "2024-01-20")].map
             fun run => (runTotals run.1).cost).sum ∧
      bY.total_margin = ([([(⟨"A", 1, 100, 50, 100, 50, 50, 50⟩ : CalcLine)], "2024-01-15"),
           ([(⟨"B", 2, 10, 5, 20, 10, 10, 50⟩ : CalcLine)], "2024-01-20")].map
             fun run => (runTotals run.1).margin).sum ∧
      bY.product_count = ([([(⟨"A", 1, 100, 50, 100, 50, 50, 50⟩ : CalcLine)], "2024-01-15"),
           ([(⟨"B", 2, 10, 5, 20, 10, 10, 50⟩ : CalcLine)], "2024-01-20")].map
             fun run => (runTotals run.1).products).foldl max 0) :=
  ⟨by decide, rfl, rfl, by decide,
   rollup_additive_totals_and_max_products (fun _ => none) (fun _ => none) "2024-01" "2024"
     [([(⟨"A", 1, 100, 50, 100, 50, 50, 50⟩ : CalcLine)], "2024-01-15"),
      ([(⟨"B", 2, 10, 5, 20, 10, 10, 50⟩ : CalcLine)], "2024-01-20")] true
     (by decide) rfl rfl (by decide)⟩

/-- C3 counterexample: the manual merge of a latest-purchase batch into the
store deduplicates on the (product code, timestamp) pair, so merging a
batch containing a code already in the store keeps two rows for that code
— the merged store does not contain exactly one row per distinct code. -/
theorem manual_merge_two_rows_per_code :
    mergeManual [⟨"SP001", 60, 1⟩] [⟨"SP001", 65⟩] 2 =
      [⟨"SP001", 65, 2⟩, ⟨"SP001", 60, 1⟩] ∧
    ¬ (((mergeManual [⟨"SP001", 60, 1⟩] [⟨"SP001", 65⟩] 2).map Rec.code).Nodup) :=
  ⟨by decide, by decide⟩

/-- C3 amended: the merge performed by the calculation run does guarantee
exactly one row per distinct product code of the old and stamped-new rows,
and each kept row is one of those rows carrying the latest timestamp for
its code. -/
theorem calc_merge_one_row_per_code_latest (hist : List Rec) (new : List NewRec) (now : ℕ) :
    ((mergeCalc hist new now).map Rec.code).Nodup ∧
    (∀ c : String, (∃ y ∈ hist ++ stampAll now new, y.code = c) ↔
        ∃ x ∈ mergeCalc hist new now, x.code = c) ∧
    (∀ x ∈ mergeCalc hist new now, x ∈ hist ++ stampAll now new ∧
        ∀ y ∈ hist ++ stampAll now new, y.code = x.code → y.time ≤ x.time) := by
  refine ⟨nodup_codes_mergeCalc hist new now, ?_, ?_⟩
  · intro c
    constructor
    · rintro ⟨y, hy, hyc⟩
      obtain ⟨x, hx⟩ := lookupRow_mergeCalc_isSome hy hyc
      obtain ⟨hx1, hx2, hx3⟩ := lookupRow_mergeCalc_some hx
      exact ⟨x, (lookupRow_mem hx).1, hx2⟩
    · rintro ⟨x, hx, hxc⟩
      exact ⟨x, mem_mergeCalc_subset hx, hxc⟩
  · intro x hx
    exact ⟨mem_mergeCalc_subset hx, mem_mergeCalc_time_max hx⟩

/-- Witness for the amended C3 statement at the spec's own example. -/
theorem calc_merge_one_row_per_code_latest_witness :
    ((mergeCalc [⟨"SP001", 60, 1⟩] [⟨"SP001", 65⟩] 2).map Rec.code).Nodup ∧
    (∀ c : String,
        (∃ y ∈ [(⟨"SP001", 60, 1⟩ : Rec)] ++ stampAll 2 [⟨"SP001", 65⟩], y.code = c) ↔
        ∃ x ∈ mergeCalc [⟨"SP001", 60, 1⟩] [⟨"SP001", 65⟩] 2, x.code = c) ∧
    (∀ x ∈ mergeCalc [⟨"SP001", 60, 1⟩] [⟨"SP001", 65⟩] 2,
        x ∈ [(⟨"SP001", 60, 1⟩ : Rec)] ++ stampAll 2 [⟨"SP001", 65⟩] ∧
        ∀ y ∈ [(⟨"SP001", 60, 1⟩ : Rec)] ++ stampAll 2 [⟨"SP001", 65⟩],
          y.code = x.code → y.time ≤ x.time) :=
  calc_merge_one_row_per_code_latest [⟨"SP001", 60, 1⟩] [⟨"SP001", 65⟩] 2

/-- C5 counterexample: merging the same single-record update twice does not
yield an identical store — the second merge re-stamps the record with the
later merge time, so the kept row's timestamp differs. -/
theorem merge_twice_changes_store :
    mergeCalc [] [⟨"SP001", 60⟩] 1 = [⟨"SP001", 60, 1⟩] ∧
    mergeCalc (mergeCalc [] [⟨"SP001", 60⟩] 1) [⟨"SP001", 60⟩] 2 = [⟨"SP001", 60, 2⟩] ∧
    mergeCalc (mergeCalc [] [⟨"SP001", 60⟩] 1) [⟨"SP001", 60⟩] 2 ≠
      mergeCalc [] [⟨"SP001", 60⟩] 1 :=
  ⟨by decide, by decide, by decide⟩

/-- C5 amended: when every timestamp in the store is older than the first
merge's stamp, merging the same single-record update twice leaves every
product's code and price as after merging it once — only the re-merged
record's timestamp is refreshed. -/
theorem merge_twice_same_codes_and_prices (S : List Rec) (r : NewRec) (t1 t2 : ℕ)
    (hS : ∀ x ∈ S, x.time < t1) (c : String) :
    (lookupRow (mergeCalc (mergeCalc S [r] t1) [r] t2) c).map (fun x => (x.code, x.price)) =
      (lookupRow (mergeCalc S [r] t1) c).map (fun x => (x.code, x.price)) := by
  have hinj := List.inj_on_of_nodup_map (nodup_codes_mergeCalc S [r] t1)
  have h1 : lookupRow (mergeCalc S [r] t1) r.code = some (⟨r.code, r.price, t1⟩ : Rec) := by
    have hmem : (⟨r.code, r.price, t1⟩ : Rec) ∈ S ++ stampAll t1 [r] := by
      simp [stampAll]
    obtain ⟨x, hx⟩ := lookupRow_mergeCalc_isSome hmem rfl
    obtain ⟨hx1, hx2, hx3⟩ := lookupRow_mergeCalc_some hx
    have hxt : t1 ≤ x.time := hx3 _ hmem rfl
    rcases List.mem_append.mp hx1 with hxS | hxs
    · exact absurd hxt (not_le.mpr (hS x hxS))
    · have hxe : x = ⟨r.code, r.price, t1⟩ := by simpa [stampAll] using hxs
      rw [hx, hxe]
  by_cases hc : c = r.code
  · subst hc
    rw [h1]
    have hmem2 : (⟨r.code, r.price, t2⟩ : Rec) ∈ mergeCalc S [r] t1 ++ stampAll t2 [r] := by
      simp [stampAll]
    obtain ⟨x, hx⟩ := lookupRow_mergeCalc_isSome hmem2 rfl
    obtain ⟨hx1, hx2, _⟩ := lookupRow_mergeCalc_some hx
    rw [hx]
    rcases List.mem_append.mp hx1 with hxo | hxs
    · have hs1 : (⟨r.code, r.price, t1⟩ : Rec) ∈ mergeCalc S [r] t1 := (lookupRow_mem h1).1
      have hxe : x = ⟨r.code, r.price, t1⟩ := hinj hxo hs1 (by rw [hx2])
      rw [hxe]
    · have hxe : x = ⟨r.code, r.price, t2⟩ := by simpa [stampAll] using hxs
      rw [hxe]
      simp
  · cases hl : lookupRow (mergeCalc S [r] t1) c with
    | none =>
        have hnone := lookupRow_mergeCalc_none hl
        cases h2 : lookupRow (mergeCalc (mergeCalc S [r] t1) [r] t2) c with
        | none => rfl
        | some x =>
            obtain ⟨hx1, hx2, _⟩ := lookupRow_mergeCalc_some h2
            rcases List.mem_append.mp hx1 with hxo | hxs
            · exact absurd hx2 (hnone x (mem_mergeCalc_subset hxo))
            · have hxe : x = ⟨r.code, r.price, t2⟩ := by simpa [stampAll] using hxs
              exact absurd (hxe ▸ hx2) (fun he => hc he.symm)
    | some x =>
        have hxmem : x ∈ mergeCalc S [r] t1 := (lookupRow_mem hl).1
        have hxc : x.code = c := (lookupRow_mem hl).2
        have hmem2 : x ∈ mergeCalc S [r] t1 ++ stampAll t2 [r] :=
          List.mem_append.mpr (Or.inl hxmem)
        obtain ⟨y, hy⟩ := lookupRow_mergeCalc_isSome hmem2 hxc
        obtain ⟨hy1, hy2, _⟩ := lookupRow_mergeCalc_some hy
        rcases List.mem_append.mp hy1 with hyo | hys
        · have hye : y = x := hinj hyo hxmem (by rw [hy2, hxc])
          rw [hy, hye]
        · have hye : y = ⟨r.code, r.price, t2⟩ := by simpa [stampAll] using hys
          exact absurd (hye ▸ hy2) (fun he => hc he.symm)

/-- Witness for the amended C5 statement at a concrete store and update. -/
theorem merge_twice_same_codes_and_prices_witness :
    (∀ x ∈ [(⟨"B", 7, 0⟩ : Rec)], x.time < 1) ∧
    (lookupRow (mergeCalc (mergeCalc [⟨"B", 7, 0⟩] [⟨"A", 5⟩] 1) [⟨"A", 5⟩] 2) "A").map
        (fun x => (x.code, x.price)) =
      (lookupRow (mergeCalc [⟨"B", 7, 0⟩] [⟨"A", 5⟩] 1) "A").map
        (fun x => (x.code, x.price)) :=
  ⟨by decide,
   merge_twice_same_codes_and_prices [⟨"B", 7, 0⟩] ⟨"A", 5⟩ 1 2 (by decide) "A"⟩

/-- C6 counterexample: a bucket whose cumulative total sales are driven
down to 0 by a later run keeps its stale margin rate of 50 instead of the
0 the claim requires for total_sales ≤ 0. -/
theorem margin_rate_not_reset_counterexample :
    ¬ (∀ (M Y : BucketMap) (lines : List CalcLine) (dateStr : String) (disk : Bool)
          (mk yk : String) (b : Bucket),
        parseYMD dateStr = some (mk, yk) →
        (updateCumulativeData M Y lines dateStr disk).1.1 mk = some b →
        b.total_sales ≤ 0 → b.margin_rate = 0) := by
  intro h
  have h2 := h (updateCumulativeData (fun _ => none) (fun _ => none)
                  [⟨"A", 1, 100, 50, 100, 50, 50, 50⟩] "2024-01-15" true).1.1
               (updateCumulativeData (fun _ => none) (fun _ => none)
                  [⟨"A", 1, 100, 50, 100, 50, 50, 50⟩] "2024-01-15" true).1.2
               [⟨"A", 1, 0, 0, -100, 0, -100, 0⟩] "2024-01-16" true
               "2024-01" "2024" ⟨0, 50, -50, 50, 1⟩ (by decide) (by decide) (by decide)
  exact absurd h2 (by decide)

/-- C6 amended: after every rollup update, the bucket's margin rate equals
total_margin / total_sales × 100 whenever the updated total sales are
positive; otherwise it retains the value it had before the update (0 for a
newly created bucket), for both the monthly and the yearly bucket. -/
theorem margin_rate_recomputed_or_retained (M Y : BucketMap) (lines : List CalcLine)
    (dateStr : String) (disk : Bool) (mk yk : String)
    (hp : parseYMD dateStr = some (mk, yk)) :
    ∃ bm bY,
      (updateCumulativeData M Y lines dateStr disk).1.1 mk = some bm ∧
      (updateCumulativeData M Y lines dateStr disk).1.2 yk = some bY ∧
      (0 < bm.total_sales → bm.margin_rate = bm.total_margin / bm.total_sales * 100) ∧
      (¬ 0 < bm.total_sales → bm.margin_rate = (getOr M mk).margin_rate) ∧
      (0 < bY.total_sales → bY.margin_rate = bY.total_margin / bY.total_sales * 100) ∧
      (¬ 0 < bY.total_sales → bY.margin_rate = (getOr Y yk).margin_rate) := by
  have hu := updateCumulative_parse_some hp M Y lines disk
  refine ⟨updateBucket (getOr M mk) (runTotals lines),
          updateBucket (getOr Y yk) (runTotals lines), ?_, ?_, ?_, ?_, ?_, ?_⟩
  · rw [hu]; exact setB_same M mk _
  · rw [hu]; exact setB_same Y yk _
  · exact fun h => updateBucket_margin_rate_pos _ _ h
  · exact fun h => updateBucket_margin_rate_nonpos _ _ h
  · exact fun h => updateBucket_margin_rate_pos _ _ h
  · exact fun h => updateBucket_margin_rate_nonpos _ _ h

/-- Witness for the amended C6 statement at a concrete update. -/
theorem margin_rate_recomputed_or_retained_witness :
    parseYMD "2024-01-15" = some ("2024-01", "2024") ∧
    (∃ bm bY,
      (updateCumulativeData (fun _ => none) (fun _ => none)
          [(⟨"A", 1, 100, 50, 100, 50, 50, 50⟩ : CalcLine)] "2024-01-15" true).1.1 "2024-01"
        = some bm ∧
      (updateCumulativeData (fun _ => none) (fun _ => none)
          [(⟨"A", 1, 100, 50, 100, 50, 50, 50⟩ : CalcLine)] "2024-01-15" true).1.2 "2024"
        = some bY ∧
      (0 < bm.total_sales → bm.margin_rate = bm.total_margin / bm.total_sales * 100) ∧
      (¬ 0 < bm.total_sales →
        bm.margin_rate = (getOr (fun _ => none) "2024-01").margin_rate) ∧
      (0 < bY.total_sales → bY.margin_rate = bY.total_margin / bY.total_sales * 100) ∧
      (¬ 0 < bY.total_sales →
        bY.margin_rate = (getOr (fun _ => none) "2024").margin_rate)) :=
  ⟨by decide,
   margin_rate_recomputed_or_retained (fun _ => none) (fun _ => none)
     [(⟨"A", 1, 100, 50, 100, 50, 50, 50⟩ : CalcLine)] "2024-01-15" true
     "2024-01" "2024" (by decide)⟩

end MarginApp
